import Mathlib

/-!
Shallow embedding of the lark job layer:
`packages/lark-jobs/src/Job.ts` (the `Job` class: `dispatch`, `dispatchNow`,
`register`, `getOptions`) and the lark-jobs index module (the lazy `queues`
proxy, `loadJobs`, `configureQueue`, `initQueues` and the per-queue consumer).

Payloads are kept abstract as a type parameter `π`. JavaScript `undefined`
payloads are `Option π = none`. A handler that may throw is modelled as
`Option π → Except String Bool` where `Except.error` is a thrown error.
File-system job discovery (`loadJobs`) has no influence on the queue logic
beyond happening; it is modelled as a counter of discovery runs, matching the
call-counter observation point the spec designates for it. The Bull `Queue`
constructor is modelled as minting a fresh handle carrying the queue name, a
creation sequence number and the default job options computed from the
configuration; `queue.add`, `queue.close` and `queue.process` are recorded as
events. The external transport's acceptance or rejection of an `add` is a
parameter (`addOutcome`).
-/

namespace Lark

/-- Embeds `Config.data.jobs.options`: the optional jobs options block of the
configuration (`removeOnComplete`, `attempts`, `debug`); every field may be
absent. A JavaScript number field is modelled as `Option Nat` where `none` is
`undefined`; the only falsy present value is `0`. -/
structure JobsOptions where
  removeOnComplete : Option Bool := none
  attempts : Option Nat := none
  debug : Option Bool := none
deriving Repr, DecidableEq

/-- Embeds `Config.data.jobs`: the jobs block of the configuration. `queues` may be
absent (`none`) or present (possibly the empty list). -/
structure JobsConfig where
  dir : String := "jobs"
  queues : Option (List String) := none
  options : Option JobsOptions := none
deriving Repr, DecidableEq

/-- Embeds `Config.data`: the part of the loaded configuration the job layer reads.
`jobs` may be absent. -/
structure ConfigData where
  jobs : Option JobsConfig := none
deriving Repr, DecidableEq

/-- The options object built by `Job.getOptions` and passed to `queue.add`:
keys are present or absent, never present-with-`undefined`. -/
structure JobOptions where
  delay : Option Nat := none
  attempts : Option Nat := none
deriving Repr, DecidableEq

/-- The wire envelope `{ job: this.constructor.name, payload }` built by
`Job.dispatch` and destructured by the consumer. The spec calls the `job`
field `unitName`. -/
structure Envelope (π : Type) where
  job : String
  payload : Option π
deriving Repr, DecidableEq

/-- A `Job` subclass together with the instance `new C()` yields: the class
name (`C.name`, equal to `this.constructor.name` on the instance), the
configuration fields with their base-class defaults (`queueName = "default"`,
`delayInSeconds = 0`, `attempts = 5`) and the `handle` implementation. The
class and its fresh zero-argument instance are identified, which is faithful
because instantiation runs no constructor logic. -/
structure JobUnit (π : Type) where
  className : String
  queueName : String := "default"
  delayInSeconds : Nat := 0
  attempts : Nat := 5
  handle : Option π → Except String Bool

/-- Embeds `Job.getOptions`: starts from `{}`, adds `delay = delayInSeconds * 1000`
only when `delayInSeconds` is truthy (nonzero) and `attempts` only when
`attempts` is truthy (nonzero). -/
def JobUnit.getOptions {π : Type} (j : JobUnit π) : JobOptions :=
  let o : JobOptions := {}
  let o := if j.delayInSeconds ≠ 0 then { o with delay := some (j.delayInSeconds * 1000) } else o
  if j.attempts ≠ 0 then { o with attempts := some j.attempts } else o

/-- Embeds `Config.jobs`: the process-wide registry from unit name to job class,
modelled as an association list with object-property semantics (assignment
overwrites). -/
def Registry (π : Type) : Type := List (String × JobUnit π)

/-- Object property assignment `obj[k] = v`: overwrite the entry for `k` if
present, otherwise append it. -/
def setEntry {α : Type} (m : List (String × α)) (k : String) (v : α) : List (String × α) :=
  if m.any (fun p => p.1 == k) then
    m.map (fun p => if p.1 == k then (k, v) else p)
  else
    m ++ [(k, v)]

/-- Object property read `obj[k]`: `none` is JavaScript `undefined`. -/
def getEntry {α : Type} (m : List (String × α)) (k : String) : Option α :=
  (m.find? (fun p => p.1 == k)).map (fun p => p.2)

/-- Embeds `Job.register`: `Config.jobs[job.name] = job` — stores the class under its
own name. -/
def Registry.register {π : Type} (reg : Registry π) (j : JobUnit π) : Registry π :=
  setEntry reg j.className j

/-- The read `Config.jobs[name]` done by the consumer; `none` when no class was
registered under `name`. -/
def Registry.lookup {π : Type} (reg : Registry π) (name : String) : Option (JobUnit π) :=
  getEntry reg name

/-- The test `Config.data.jobs?.options?.debug === true`. -/
def debugOn (cfg : ConfigData) : Bool :=
  ((cfg.jobs.bind (fun jc => jc.options)).bind (fun o => o.debug)) == some true

/-- JavaScript `x || 2` on the optional number `x`: `2` when `x` is absent or
falsy (zero), otherwise `x`. -/
def orTwo : Option Nat → Nat
  | some n => if n = 0 then 2 else n
  | none => 2

/-- The `defaultJobOptions` object passed to every `new Queue(...)` call:
`removeOnComplete` is forwarded as-is (possibly `undefined`) and `attempts`
is `Config.data.jobs.options?.attempts || 2`. -/
structure QueueDefaultOptions where
  removeOnComplete : Option Bool := none
  attempts : Nat
deriving Repr, DecidableEq

/-- Default job options computed from a present `Config.data.jobs`. -/
def mkDefaultJobOptions (jc : JobsConfig) : QueueDefaultOptions :=
  { removeOnComplete := (jc.options.bind (fun o => o.removeOnComplete))
    attempts := orTwo (jc.options.bind (fun o => o.attempts)) }

/-- A Bull queue handle: the queue name it was constructed with, a creation
sequence number distinguishing separately constructed handles for the same
name, and the default job options it was configured with. -/
structure QueueHandle where
  name : String
  id : Nat
  defaultJobOptions : QueueDefaultOptions
deriving Repr, DecidableEq

/-- The module-level mutable state of the lark-jobs index module, plus
observation instrumentation: `isInitialized` and `queueMap` are the two
module variables; `nextId` numbers `new Queue(...)` constructions;
`constructions` records every handle ever constructed (in order);
`consumers` records every `handle.process(concurrency, ...)` attachment as
(handle id, concurrency); `discoveryRuns` counts job-file discovery runs of
`loadJobs`; `warnLogs` records `consola.warn` messages. -/
structure QState where
  isInitialized : Bool := false
  queueMap : List (String × QueueHandle) := []
  nextId : Nat := 0
  constructions : List QueueHandle := []
  consumers : List (Nat × Nat) := []
  discoveryRuns : Nat := 0
  warnLogs : List String := []
deriving Repr, DecidableEq

/-- Embeds `new Queue(queueName, { redis, defaultJobOptions })`: mints a fresh handle
and records the construction. -/
def newQueue (jc : JobsConfig) (s : QState) (queueName : String) : QueueHandle × QState :=
  let h : QueueHandle := ⟨queueName, s.nextId, mkDefaultJobOptions jc⟩
  (h, { s with nextId := s.nextId + 1, constructions := s.constructions ++ [h] })

/-- Embeds `configureQueue(queueName)`: constructs a brand-new Bull queue from the
global configuration. It dereferences `Config.data.jobs` without optional
chaining, so with `jobs` absent it throws (modelled as `none`); it never
touches the queue cache. -/
def configureQueue (cfg : ConfigData) (s : QState) (queueName : String) :
    Option (QueueHandle × QState) :=
  cfg.jobs.map (fun jc => newQueue jc s queueName)

/-- Embeds `loadJobs()`: when `Config.data.jobs` is present, scans the jobs directory
and `require`s each job file (whose top-level side effects register classes).
The file-system interaction is abstracted to a counter of discovery runs —
the observation point the spec prescribes for it; discovery errors are logged
and non-fatal, so control flow is unaffected either way. -/
def loadJobs (cfg : ConfigData) (s : QState) : QState :=
  match cfg.jobs with
  | some _ => { s with discoveryRuns := s.discoveryRuns + 1 }
  | none => s

/-- The read `Config.data.jobs?.queues`. -/
def configuredQueues (cfg : ConfigData) : Option (List String) :=
  cfg.jobs.bind (fun jc => jc.queues)

/-- Truthiness of `Config.data.jobs?.queues?.length`: false when `jobs` or
`queues` is absent or the list is empty. -/
def queuesLengthTruthy (cfg : ConfigData) : Bool :=
  match configuredQueues cfg with
  | some l => l.length != 0
  | none => false

/-- What `initQueues` returns: the literal `{}` of its empty-configuration
early return, or the `queues` proxy object (`return queues` on every other
path). -/
inductive InitResult
  | plainEmpty
  | proxyRef
deriving Repr, DecidableEq

/-- The body of the `for (const queueName of Config.data.jobs.queues)` loop in
`initQueues`: for each configured name, construct a new queue, store it in the
map through the proxy setter (overwriting any previous entry for that name),
then fetch it back through the proxy getter — the map is non-empty at that
point, so the getter is a plain read of the entry just stored — and attach the
consumer with concurrency 1. -/
def attachLoop (jc : JobsConfig) (names : List String) (s : QState) : QState :=
  match names with
  | [] => s
  | n :: rest =>
      let hs := newQueue jc s n
      let s1 := hs.2
      let s2 := { s1 with queueMap := setEntry s1.queueMap n hs.1 }
      let s3 := { s2 with consumers := s2.consumers ++ [(hs.1.id, 1)] }
      attachLoop jc rest s3

/-- Embeds `initQueues()`: always calls `loadJobs()` first; when not yet marked
initialized and `Config.data.jobs?.queues?.length` is falsy, warns, sets the
flag and returns `{}`; otherwise sets the flag (a no-op when already set) and,
when `Config.data.jobs?.queues` is present, runs the construction loop; it
then returns the `queues` proxy. -/
def initQueues (cfg : ConfigData) (s0 : QState) : InitResult × QState :=
  let s := loadJobs cfg s0
  if s.isInitialized = false ∧ queuesLengthTruthy cfg = false then
    (InitResult.plainEmpty,
      { s with isInitialized := true, warnLogs := s.warnLogs ++ ["⚠️  No queues configured"] })
  else
    let s := { s with isInitialized := true }
    match configuredQueues cfg, cfg.jobs with
    | some names, some jc => (InitResult.proxyRef, attachLoop jc names s)
    | _, _ => (InitResult.proxyRef, s)

/-- The `queues` proxy `get` trap: when the underlying map is empty it calls
`initQueues()` and then reads `prop` off the returned object — a plain
`undefined` read when that object is the `{}` early return, and a re-entry
into this very trap when it is the `queues` proxy. The re-entry is modelled
with explicit fuel: a result of `none` means the recursion consumed every
finite amount of fuel, i.e. the real code recurses without bound. A result of
`some r` is normal termination with `r` (`r = none` being `undefined`). -/
def proxyGet (cfg : ConfigData) : Nat → QState → String → Option (Option QueueHandle) × QState
  | 0, s, _ => (none, s)
  | Nat.succ fuel, s, prop =>
    if s.queueMap.isEmpty then
      match initQueues cfg s with
      | (InitResult.plainEmpty, s1) => (some none, s1)
      | (InitResult.proxyRef, s1) => proxyGet cfg fuel s1 prop
    else
      (some (getEntry s.queueMap prop), s)

/-- A sequence of accesses `queues[p]` for the names in `props`, each run with
the given fuel; returns the final module state. -/
def lookups (cfg : ConfigData) (fuel : Nat) (s : QState) (props : List String) : QState :=
  props.foldl (fun st p => (proxyGet cfg fuel st p).2) s

/-- Observable actions of the dispatch path (`Job.dispatch` /
`Job.dispatchNow`): queue construction, `queue.add` with envelope and
options, `queue.close`, an info log, and a direct `handle` invocation. -/
inductive DEvent (π : Type)
  | construct (h : QueueHandle)
  | add (queueName : String) (env : Envelope π) (opts : JobOptions)
  | close (queueName : String)
  | logInfo (msg : String)
  | handleCall (className : String) (payload : Option π)
deriving Repr, DecidableEq

/-- Embeds `Job.dispatch(payload)`: `this.queue = configureQueue(this.queueName)`
(throws if `Config.data.jobs` is absent), an info log under the debug flag,
`await this.queue.add({job, payload}, this.getOptions())` — whose acceptance
or rejection by the transport is the `addOutcome` parameter — then
`this.queue.close()` and `return true`. A rejected `add` makes the `await`
throw, so `close` is never reached on that path: there is no try/finally. -/
def JobUnit.dispatch {π : Type} (cfg : ConfigData) (j : JobUnit π) (payload : Option π)
    (addOutcome : Except String Unit) (s : QState) :
    Except String Bool × List (DEvent π) × QState :=
  match configureQueue cfg s j.queueName with
  | none => (Except.error "TypeError: Config.data.jobs is undefined", [], s)
  | some hs =>
    let logs : List (DEvent π) := if debugOn cfg then [DEvent.logInfo "Job added to queue"] else []
    let ev0 : List (DEvent π) := DEvent.construct hs.1 :: logs
    let addEv : DEvent π := DEvent.add j.queueName ⟨j.className, payload⟩ j.getOptions
    match addOutcome with
    | Except.ok _ => (Except.ok true, ev0 ++ [addEv, DEvent.close j.queueName], hs.2)
    | Except.error e => (Except.error e, ev0 ++ [addEv], hs.2)

/-- Embeds `Job.dispatchNow(payload)`: an info log under the debug flag, then
`return this.handle(payload)` — a direct call with no transport
interaction. -/
def JobUnit.dispatchNow {π : Type} (cfg : ConfigData) (j : JobUnit π) (payload : Option π) :
    Except String Bool × List (DEvent π) :=
  let logs : List (DEvent π) :=
    if debugOn cfg then [DEvent.logInfo "Dispatching job synchronously"] else []
  (j.handle payload, logs ++ [DEvent.handleCall j.className payload])

/-- The `queue.add` calls of a dispatch trace, as (queue name, envelope,
options) triples. -/
def addEvents {π : Type} (tr : List (DEvent π)) : List (String × Envelope π × JobOptions) :=
  tr.foldr
    (fun e acc =>
      match e with
      | DEvent.add q env o => (q, env, o) :: acc
      | _ => acc)
    []

/-- The handles constructed during a dispatch trace. -/
def constructEvents {π : Type} (tr : List (DEvent π)) : List QueueHandle :=
  tr.foldr
    (fun e acc =>
      match e with
      | DEvent.construct h => h :: acc
      | _ => acc)
    []

/-- The queue names closed during a dispatch trace. -/
def closeEvents {π : Type} (tr : List (DEvent π)) : List String :=
  tr.foldr
    (fun e acc =>
      match e with
      | DEvent.close q => q :: acc
      | _ => acc)
    []

/-- Observable actions of the per-queue consumer installed by `initQueues`:
logs, class instantiation, `handle` invocation, and the Bull `done` callback
called with no argument or with an error. -/
inductive WEvent (π : Type)
  | logInfo (msg : String)
  | logDebug (msg : String)
  | logError (msg : String)
  | instantiate (className : String)
  | handleCall (className : String) (payload : Option π)
  | doneOk
  | doneErr (e : String)
deriving Repr, DecidableEq

/-- The error message logged when no class is registered under the envelope's
unit name. -/
def noHandlerMsg (job : String) : String :=
  s!"❌ No handler found for job type \"{job}\". Make sure you have created a job handler in your jobs directory."

/-- The consumer callback `initQueues` attaches with `queue.process(1, ...)`,
applied to one delivered message: destructure `{job, payload}` from the
message data, log, look `job` up in `Config.jobs`; when absent, log an error
and `return` — `done` is never invoked on this path; when present,
`await new jobHandler().handle(payload)` inside try/catch: a resolved handler
(either boolean) logs and calls `done()`, a thrown error logs and calls
`done(error)`. Returns the list of observable actions in order. -/
def consumeMessage {π : Type} (registry : Registry π) (jobId : Nat) (env : Envelope π) :
    List (WEvent π) :=
  let pre : List (WEvent π) :=
    [WEvent.logInfo s!" Processing job {jobId}: {env.job}", WEvent.logDebug "Payload"]
  match Registry.lookup registry env.job with
  | none => pre ++ [WEvent.logError (noHandlerMsg env.job)]
  | some cls =>
    let callEvs : List (WEvent π) :=
      [WEvent.instantiate cls.className, WEvent.handleCall cls.className env.payload]
    match cls.handle env.payload with
    | Except.ok status =>
        pre ++ callEvs ++
          [WEvent.logInfo s!"Job {env.job} completed with status: {toString status}",
           WEvent.doneOk]
    | Except.error e =>
        pre ++ callEvs ++
          [WEvent.logError s!"❌ Error processing job {env.job}: {e}", WEvent.doneErr e]

/-- The `done` callback invocations of a consumer trace: `none` is `done()`
(success/completion), `some e` is `done(e)` (failure, handed to the
transport's retry mechanism). -/
def doneCalls {π : Type} (tr : List (WEvent π)) : List (Option String) :=
  tr.foldr
    (fun e acc =>
      match e with
      | WEvent.doneOk => none :: acc
      | WEvent.doneErr s => some s :: acc
      | _ => acc)
    []

/-- The class instantiations of a consumer trace. -/
def instantiations {π : Type} (tr : List (WEvent π)) : List String :=
  tr.foldr
    (fun e acc =>
      match e with
      | WEvent.instantiate c => c :: acc
      | _ => acc)
    []

/-- The `handle` invocations of a consumer trace. -/
def handleCalls {π : Type} (tr : List (WEvent π)) : List (String × Option π) :=
  tr.foldr
    (fun e acc =>
      match e with
      | WEvent.handleCall c p => (c, p) :: acc
      | _ => acc)
    []

/-- The direct `handle` invocations of a dispatch-path trace. -/
def dispatchHandleCalls {π : Type} (tr : List (DEvent π)) : List (String × Option π) :=
  tr.foldr
    (fun e acc =>
      match e with
      | DEvent.handleCall c p => (c, p) :: acc
      | _ => acc)
    []

/- ## Concrete fixtures used by witnesses and counterexamples -/

/-- A configuration whose `jobs` block is present with all-default fields. -/
def cfgW : ConfigData := { jobs := some {} }

/-- A job class with `queueName = "emails"` (other fields at their base-class
defaults) whose handler succeeds. -/
def emailJob : JobUnit String :=
  { className := "SendEmailJob", queueName := "emails", handle := fun _ => Except.ok true }

/-- A job class with `delayInSeconds = 5` and `attempts = 3`. -/
def delayJob : JobUnit Unit :=
  { className := "DelayJob", delayInSeconds := 5, attempts := 3,
    handle := fun _ => Except.ok true }

/-- A job class with `delayInSeconds = 0` (the base-class default). -/
def nowJob : JobUnit Unit :=
  { className := "NowJob", handle := fun _ => Except.ok true }

/-- A registered job class whose handler resolves to `false`. -/
def okJob : JobUnit Unit :=
  { className := "OkJob", handle := fun _ => Except.ok false }

/-- A registered job class whose handler throws. -/
def throwJob : JobUnit Unit :=
  { className := "ThrowJob", handle := fun _ => Except.error "boom" }

/-- A registry holding `okJob` and `throwJob` under their class names. -/
def regW : Registry Unit := [("OkJob", okJob), ("ThrowJob", throwJob)]

/-- A jobs configuration block with the single configured queue `"default"`
and no options block. -/
def jc4 : JobsConfig := { queues := some ["default"] }

/-- A configuration with the single configured queue `"default"`. -/
def cfg4 : ConfigData := { jobs := some jc4 }

/-- The handle the one-time initialization pass creates for the configured
queue `"default"` under `cfg4` (creation number 0, fallback attempts 2). -/
def h0c : QueueHandle := ⟨"default", 0, { attempts := 2 }⟩

/-- The module state after the first proxy lookup under `cfg4`: initialized,
the `"default"` handle cached, one discovery run, one consumer attached. -/
def s1c : QState :=
  { isInitialized := true, queueMap := [("default", h0c)], nextId := 1,
    constructions := [h0c], consumers := [(0, 1)], discoveryRuns := 1 }

/-- A job class on the default queue whose handler succeeds. -/
def defaultJob : JobUnit Unit :=
  { className := "SendEmailJob", handle := fun _ => Except.ok true }

/-- A configuration whose jobs block is present but whose configured
queue-name list is empty. -/
def cfgE : ConfigData := { jobs := some { queues := some ([] : List String) } }

/- ## Helper lemmas -/

theorem getEntry_cons_pos {α : Type} (p : String × α) (rest : List (String × α)) (k : String)
    (hp : (p.1 == k) = true) : getEntry (p :: rest) k = some p.2 := by
  unfold getEntry
  rw [List.find?_cons_of_pos (p := fun q => q.1 == k) rest hp]
  rfl

theorem getEntry_cons_neg {α : Type} (p : String × α) (rest : List (String × α)) (k : String)
    (hp : (p.1 == k) = false) : getEntry (p :: rest) k = getEntry rest k := by
  unfold getEntry
  rw [List.find?_cons_of_neg (p := fun q => q.1 == k) rest (by simp [hp])]

theorem getEntry_append_self {α : Type} (m : List (String × α)) (k : String) (v : α)
    (h : m.any (fun q => q.1 == k) = false) : getEntry (m ++ [(k, v)]) k = some v := by
  induction m with
  | nil => exact getEntry_cons_pos (k, v) [] k (by simp)
  | cons p rest ih =>
    simp only [List.any_cons, Bool.or_eq_false_iff] at h
    rw [List.cons_append, getEntry_cons_neg p _ k h.1]
    exact ih h.2

theorem getEntry_overwrite {α : Type} (m : List (String × α)) (k : String) (v : α)
    (h : m.any (fun q => q.1 == k) = true) :
    getEntry (m.map (fun p => if p.1 == k then (k, v) else p)) k = some v := by
  induction m with
  | nil => simp at h
  | cons p rest ih =>
    by_cases hp : (p.1 == k) = true
    · rw [List.map_cons, if_pos hp]
      exact getEntry_cons_pos (k, v) _ k (by simp)
    · simp only [Bool.not_eq_true] at hp
      simp only [List.any_cons, hp, Bool.false_or] at h
      rw [List.map_cons, if_neg (by simp [hp]), getEntry_cons_neg p _ k hp]
      exact ih h

theorem getEntry_setEntry {α : Type} (m : List (String × α)) (k : String) (v : α) :
    getEntry (setEntry m k v) k = some v := by
  by_cases h : m.any (fun q => q.1 == k) = true
  · rw [setEntry, if_pos h]
    exact getEntry_overwrite m k v h
  · simp only [Bool.not_eq_true] at h
    rw [setEntry, if_neg (by simp [h])]
    exact getEntry_append_self m k v h

/-- Lemma: `dispatch` performs exactly one `add`, on the unit's queue name, with the
envelope `{job: className, payload}` and the options `getOptions()` computes,
whether or not the transport accepts the submission. -/
theorem dispatch_addEvents {π : Type} (cfg : ConfigData) (jc : JobsConfig)
    (hjc : cfg.jobs = some jc) (j : JobUnit π) (payload : Option π)
    (addOutcome : Except String Unit) (s : QState) :
    addEvents (JobUnit.dispatch cfg j payload addOutcome s).2.1 =
      [(j.queueName, ⟨j.className, payload⟩, j.getOptions)] := by
  cases addOutcome <;>
    simp [JobUnit.dispatch, configureQueue, hjc, newQueue, addEvents] <;>
    cases debugOn cfg <;> simp [addEvents]

theorem setEntry_ne_nil {α : Type} (m : List (String × α)) (k : String) (v : α) :
    setEntry m k v ≠ [] := by
  unfold setEntry
  split
  · rename_i hany
    intro hc
    rw [List.map_eq_nil_iff] at hc
    subst hc
    simp at hany
  · simp

/-- Unfolding of one step of the construction loop. -/
theorem attachLoop_cons (jc : JobsConfig) (n : String) (rest : List String) (s : QState) :
    attachLoop jc (n :: rest) s =
      attachLoop jc rest
        { s with nextId := s.nextId + 1,
                 queueMap := setEntry s.queueMap n ⟨n, s.nextId, mkDefaultJobOptions jc⟩,
                 constructions := s.constructions ++ [⟨n, s.nextId, mkDefaultJobOptions jc⟩],
                 consumers := s.consumers ++ [(s.nextId, 1)] } := rfl

theorem attachLoop_discoveryRuns (jc : JobsConfig) :
    ∀ (names : List String) (s : QState),
      (attachLoop jc names s).discoveryRuns = s.discoveryRuns := by
  intro names
  induction names with
  | nil => intro s; rfl
  | cons n rest ih => intro s; rw [attachLoop_cons, ih]

theorem attachLoop_constructions_length (jc : JobsConfig) :
    ∀ (names : List String) (s : QState),
      (attachLoop jc names s).constructions.length =
        s.constructions.length + names.length := by
  intro names
  induction names with
  | nil => intro s; rfl
  | cons n rest ih =>
    intro s
    rw [attachLoop_cons, ih]
    simp
    omega

theorem attachLoop_consumers (jc : JobsConfig) :
    ∀ (names : List String) (s : QState),
      s.consumers = s.constructions.map (fun h => (h.id, 1)) →
      (attachLoop jc names s).consumers =
        (attachLoop jc names s).constructions.map (fun h => (h.id, 1)) := by
  intro names
  induction names with
  | nil => intro s h; exact h
  | cons n rest ih =>
    intro s h
    rw [attachLoop_cons]
    apply ih
    simp [h]

theorem attachLoop_queueMap_ne_nil (jc : JobsConfig) :
    ∀ (names : List String) (s : QState),
      s.queueMap ≠ [] → (attachLoop jc names s).queueMap ≠ [] := by
  intro names
  induction names with
  | nil => intro s h; exact h
  | cons n rest ih =>
    intro s _
    rw [attachLoop_cons]
    exact ih _ (setEntry_ne_nil _ _ _)

theorem attachLoop_queueMap_ne_nil_of_cons (jc : JobsConfig) (n : String)
    (rest : List String) (s : QState) :
    (attachLoop jc (n :: rest) s).queueMap ≠ [] := by
  rw [attachLoop_cons]
  exact attachLoop_queueMap_ne_nil jc rest _ (setEntry_ne_nil _ _ _)

/-- Every handle present after the construction loop was either already
constructed or carries the default job options computed from the
configuration. -/
theorem attachLoop_constructions_mem (jc : JobsConfig) :
    ∀ (names : List String) (s : QState) (h : QueueHandle),
      h ∈ (attachLoop jc names s).constructions →
      h ∈ s.constructions ∨ h.defaultJobOptions = mkDefaultJobOptions jc := by
  intro names
  induction names with
  | nil => intro s h hm; exact Or.inl hm
  | cons n rest ih =>
    intro s h hm
    rw [attachLoop_cons] at hm
    rcases ih _ h hm with hmem | hopt
    · rw [List.mem_append] at hmem
      rcases hmem with h1 | h2
      · exact Or.inl h1
      · right
        rw [List.mem_singleton] at h2
        rw [h2]
    · exact Or.inr hopt

/-- A proxy lookup on a non-empty cache is a plain cached read: it returns the
cached entry and leaves the module state untouched. -/
theorem proxyGet_nonempty (cfg : ConfigData) (f : Nat) (s : QState) (p : String)
    (h : s.queueMap ≠ []) :
    proxyGet cfg (f + 1) s p = (some (getEntry s.queueMap p), s) := by
  unfold proxyGet
  simp [List.isEmpty_eq_false.mpr h]

/-- Repeated proxy lookups on a non-empty cache leave the module state
untouched. -/
theorem lookups_nonempty (cfg : ConfigData) (f : Nat) (s : QState) (ps : List String)
    (h : s.queueMap ≠ []) : lookups cfg (f + 1) s ps = s := by
  induction ps with
  | nil => rfl
  | cons p rest ih =>
    unfold lookups at ih ⊢
    rw [List.foldl_cons, proxyGet_nonempty cfg f s p h]
    exact ih

/-- The first proxy lookup from a fresh module state, under a configuration
whose queue list is non-empty, runs one initialization pass — one discovery
run, the flag set, the construction loop — and then reads off the now
non-empty cache. -/
theorem first_lookup_state (cfg : ConfigData) (jc : JobsConfig) (n : String)
    (rest : List String) (hjc : cfg.jobs = some jc) (hq : jc.queues = some (n :: rest))
    (p : String) (f : Nat) :
    proxyGet cfg (f + 2) {} p =
      (some (getEntry (attachLoop jc (n :: rest)
          { isInitialized := true, discoveryRuns := 1 }).queueMap p),
       attachLoop jc (n :: rest) { isInitialized := true, discoveryRuns := 1 }) := by
  have htruthy : queuesLengthTruthy cfg = true := by
    simp [queuesLengthTruthy, configuredQueues, hjc, hq]
  have hinit : initQueues cfg ({} : QState) =
      (InitResult.proxyRef,
        attachLoop jc (n :: rest) { isInitialized := true, discoveryRuns := 1 }) := by
    unfold initQueues
    simp [loadJobs, hjc, htruthy, configuredQueues, hq]
  show proxyGet cfg (f + 1 + 1) {} p = _
  unfold proxyGet
  simp only [List.isEmpty_nil, if_true, hinit, show (({} : QState)).queueMap = [] from rfl]
  exact proxyGet_nonempty cfg f _ p (attachLoop_queueMap_ne_nil_of_cons jc n rest _)

theorem setEntry_keys_nodup {α : Type} (m : List (String × α)) (k : String) (v : α)
    (h : (m.map Prod.fst).Nodup) : ((setEntry m k v).map Prod.fst).Nodup := by
  unfold setEntry
  split
  · have hkeys : (m.map (fun p => if p.1 == k then (k, v) else p)).map Prod.fst =
        m.map Prod.fst := by
      rw [List.map_map]
      apply List.map_congr_left
      intro p _
      by_cases hpk : (p.1 == k) = true
      · have : p.1 = k := eq_of_beq hpk
        simp [Function.comp, hpk, this]
      · simp only [Bool.not_eq_true] at hpk
        simp [Function.comp, hpk]
    rw [hkeys]
    exact h
  · rename_i hany
    rw [List.map_append]
    refine List.Nodup.append h (by simp) ?_
    intro a ha hb
    simp only [List.map_cons, List.map_nil, List.mem_singleton] at hb
    subst hb
    rw [List.mem_map] at ha
    obtain ⟨p, hpm, hfst⟩ := ha
    apply hany
    rw [List.any_eq_true]
    exact ⟨p, hpm, by rw [hfst]; exact beq_self_eq_true a⟩

/-- Under an empty configured queue list, once the module flag is set with the
cache still empty, a proxy lookup exhausts every finite recursion budget:
`initQueues` skips its early return (the flag is set), leaves the cache empty,
and returns the proxy itself, whose property read re-enters the trap. -/
theorem proxyGet_cfgE_diverges (p : String) :
    ∀ (f : Nat) (s : QState), s.queueMap = [] → s.isInitialized = true →
      (proxyGet cfgE f s p).1 = none := by
  intro f
  induction f with
  | zero => intro s _ _; rfl
  | succ f ih =>
    intro s h1 h2
    have hinit : initQueues cfgE s =
        (InitResult.proxyRef,
          { s with discoveryRuns := s.discoveryRuns + 1, isInitialized := true }) := by
      unfold initQueues
      simp [loadJobs, cfgE, h2, configuredQueues, attachLoop]
    unfold proxyGet
    simp only [h1, List.isEmpty_nil, if_true, hinit]
    exact ih _ rfl rfl

/- ## Claim theorems -/

/-- C1: for every Job Unit instance with `queueName = "emails"`, dispatching a
payload performs exactly one `add` call, on the `"emails"` queue, whose
envelope is `{job: <the class's name>, payload}` — and `Job.register` stores
the class in the registry under that same class name, so the envelope's unit
name equals the registry key. -/
theorem dispatch_builds_envelope {π : Type} (cfg : ConfigData) (jc : JobsConfig)
    (hjc : cfg.jobs = some jc) (j : JobUnit π) (hq : j.queueName = "emails")
    (payload : Option π) (addOutcome : Except String Unit) (s : QState) (reg : Registry π) :
    addEvents (JobUnit.dispatch cfg j payload addOutcome s).2.1 =
      [("emails", ⟨j.className, payload⟩, j.getOptions)] ∧
    Registry.lookup (Registry.register reg j) j.className = some j := by
  constructor
  · rw [← hq]
    exact dispatch_addEvents cfg jc hjc j payload addOutcome s
  · exact getEntry_setEntry reg j.className j

theorem dispatch_builds_envelope_witness :
    addEvents (JobUnit.dispatch cfgW emailJob (some "a@b.com") (Except.ok ()) {}).2.1 =
      [("emails", ⟨"SendEmailJob", some "a@b.com"⟩, emailJob.getOptions)] ∧
    Registry.lookup (Registry.register ([] : Registry String) emailJob) "SendEmailJob" =
      some emailJob :=
  dispatch_builds_envelope cfgW {} rfl emailJob rfl (some "a@b.com") (Except.ok ()) {} []

/-- C2: dispatch submits exactly the options `getOptions` computes from the
instance fields: with `delayInSeconds = 5` and `attempts = 3` the submitted
options are `{delay: 5000, attempts: 3}`; with `delayInSeconds = 0` the
submitted options carry no `delay` key at all. -/
theorem dispatch_delay_attempts_options {π : Type} (cfg : ConfigData) (jc : JobsConfig)
    (hjc : cfg.jobs = some jc) (payload : Option π) (addOutcome : Except String Unit)
    (s : QState) :
    (∀ j : JobUnit π, j.delayInSeconds = 5 → j.attempts = 3 →
        addEvents (JobUnit.dispatch cfg j payload addOutcome s).2.1 =
          [(j.queueName, ⟨j.className, payload⟩,
            { delay := some 5000, attempts := some 3 })]) ∧
    (∀ j : JobUnit π, j.delayInSeconds = 0 →
        j.getOptions.delay = none ∧
        addEvents (JobUnit.dispatch cfg j payload addOutcome s).2.1 =
          [(j.queueName, ⟨j.className, payload⟩, j.getOptions)]) := by
  constructor
  · intro j h5 h3
    rw [dispatch_addEvents cfg jc hjc j payload addOutcome s]
    have ho : j.getOptions = { delay := some 5000, attempts := some 3 } := by
      simp [JobUnit.getOptions, h5, h3]
    rw [ho]
  · intro j h0
    refine ⟨?_, dispatch_addEvents cfg jc hjc j payload addOutcome s⟩
    unfold JobUnit.getOptions
    simp only [h0, ne_eq, not_true_eq_false, if_false, reduceIte]
    split <;> rfl

theorem dispatch_delay_attempts_options_witness :
    addEvents (JobUnit.dispatch cfgW delayJob none (Except.ok ()) {}).2.1 =
      [("default", ⟨"DelayJob", none⟩, { delay := some 5000, attempts := some 3 })] ∧
    (nowJob.getOptions.delay = none ∧
      addEvents (JobUnit.dispatch cfgW nowJob none (Except.ok ()) {}).2.1 =
        [("default", ⟨"NowJob", none⟩, nowJob.getOptions)]) :=
  ⟨(dispatch_delay_attempts_options cfgW {} rfl none (Except.ok ()) {}).1 delayJob rfl rfl,
   (dispatch_delay_attempts_options cfgW {} rfl none (Except.ok ()) {}).2 nowJob rfl⟩

/-- C9: `dispatchNow` calls `handle` directly, its result equals `handle`'s
result exactly (including a thrown error), and its trace contains no `add`
call on any queue. -/
theorem dispatchNow_bypasses_transport {π : Type} (cfg : ConfigData) (j : JobUnit π)
    (payload : Option π) :
    (JobUnit.dispatchNow cfg j payload).1 = j.handle payload ∧
    addEvents (JobUnit.dispatchNow cfg j payload).2 = [] ∧
    dispatchHandleCalls (JobUnit.dispatchNow cfg j payload).2 = [(j.className, payload)] := by
  refine ⟨rfl, ?_, ?_⟩ <;>
    · unfold JobUnit.dispatchNow
      cases debugOn cfg <;> simp [addEvents, dispatchHandleCalls]

/-- C6: when the delivered envelope's unit name resolves in the registry, a
handler that resolves without throwing — to either boolean — makes the
consumer call `done()` exactly once (success), and a handler that throws
makes it call `done(error)` exactly once with that error. -/
theorem consumer_done_signaling {π : Type} (registry : Registry π) (jobId : Nat)
    (env : Envelope π) (cls : JobUnit π)
    (hcls : Registry.lookup registry env.job = some cls) :
    (∀ b : Bool, cls.handle env.payload = Except.ok b →
        doneCalls (consumeMessage registry jobId env) = [none]) ∧
    (∀ e : String, cls.handle env.payload = Except.error e →
        doneCalls (consumeMessage registry jobId env) = [some e]) := by
  constructor
  · intro b hb
    simp [consumeMessage, hcls, hb, doneCalls]
  · intro e he
    simp [consumeMessage, hcls, he, doneCalls]

theorem consumer_done_signaling_witness :
    doneCalls (consumeMessage regW 1 ⟨"OkJob", none⟩) = [none] ∧
    doneCalls (consumeMessage regW 2 ⟨"ThrowJob", none⟩) = [some "boom"] :=
  ⟨(consumer_done_signaling regW 1 ⟨"OkJob", none⟩ okJob rfl).1 false rfl,
   (consumer_done_signaling regW 2 ⟨"ThrowJob", none⟩ throwJob rfl).2 "boom" rfl⟩

/-- C7 counterexample: delivering `{unitName: "Nonexistent", payload: {}}`
against an empty registry, the consumer makes no `done` call whatsoever —
`doneCalls` is empty, not the one-element completion call `[none]` the claim's
"completion signaled with no success" requires (on the success path,
completion is signaled precisely by `done()`, cf. the resolved-handler
branch). The unknown-unit branch plain-`return`s out of the callback. -/
theorem unknown_job_counterexample :
    doneCalls (consumeMessage ([] : Registry Unit) 1 ⟨"Nonexistent", none⟩) = [] ∧
    ([] : List (Option String)) ≠ [none] := by
  exact ⟨rfl, by simp⟩

/-- C7 amended: for every envelope whose unit name is not registered, the
consumer logs an error naming the missing unit, instantiates no class, calls
no handler, and never invokes `done` — neither a completion signal nor a
retry signal reaches the transport; the callback simply returns. -/
theorem unknown_job_dropped {π : Type} (registry : Registry π) (jobId : Nat)
    (env : Envelope π) (hmiss : Registry.lookup registry env.job = none) :
    WEvent.logError (noHandlerMsg env.job) ∈ consumeMessage registry jobId env ∧
    instantiations (consumeMessage registry jobId env) = [] ∧
    handleCalls (consumeMessage registry jobId env) = [] ∧
    doneCalls (consumeMessage registry jobId env) = [] := by
  refine ⟨?_, ?_, ?_, ?_⟩ <;>
    simp [consumeMessage, hmiss, instantiations, handleCalls, doneCalls]

theorem unknown_job_dropped_witness :
    WEvent.logError (noHandlerMsg "Nonexistent") ∈ consumeMessage regW 3 ⟨"Nonexistent", none⟩ ∧
    instantiations (consumeMessage regW 3 ⟨"Nonexistent", none⟩) = [] ∧
    handleCalls (consumeMessage regW 3 ⟨"Nonexistent", none⟩) = [] ∧
    doneCalls (consumeMessage regW 3 ⟨"Nonexistent", none⟩) = [] :=
  unknown_job_dropped regW 3 ⟨"Nonexistent", none⟩ rfl

/-- C8 counterexample: a dispatch whose submission the transport rejects
(`add` throws): the per-call queue handle was constructed (one `construct`
event), yet no `close` ever happens — the release is not guaranteed on the
failure path, because `this.queue.close()` sits after the `await` with no
try/finally. -/
theorem dispatch_close_counterexample :
    closeEvents (JobUnit.dispatch cfgW emailJob (some "a@b.com")
        (Except.error "ECONNRESET") {}).2.1 = [] ∧
    (constructEvents (JobUnit.dispatch cfgW emailJob (some "a@b.com")
        (Except.error "ECONNRESET") {}).2.1).length = 1 := by
  exact ⟨rfl, rfl⟩

/-- C8 amended: the per-call handle is closed when the submission succeeds and
dispatch then returns `true`; when the transport rejects the submission the
error propagates out of dispatch and the handle is not closed. -/
theorem dispatch_close_on_success_only {π : Type} (cfg : ConfigData) (jc : JobsConfig)
    (hjc : cfg.jobs = some jc) (j : JobUnit π) (payload : Option π) (s : QState) :
    ((JobUnit.dispatch cfg j payload (Except.ok ()) s).1 = Except.ok true ∧
      closeEvents (JobUnit.dispatch cfg j payload (Except.ok ()) s).2.1 = [j.queueName]) ∧
    (∀ e : String,
      (JobUnit.dispatch cfg j payload (Except.error e) s).1 = Except.error e ∧
      closeEvents (JobUnit.dispatch cfg j payload (Except.error e) s).2.1 = []) := by
  constructor
  · cases hdb : debugOn cfg <;> constructor <;>
      simp [JobUnit.dispatch, configureQueue, hjc, newQueue, closeEvents, hdb]
  · intro e
    cases hdb : debugOn cfg <;> constructor <;>
      simp [JobUnit.dispatch, configureQueue, hjc, newQueue, closeEvents, hdb]

theorem dispatch_close_on_success_only_witness :
    ((JobUnit.dispatch cfgW emailJob (some "a@b.com") (Except.ok ()) {}).1 = Except.ok true ∧
      closeEvents (JobUnit.dispatch cfgW emailJob (some "a@b.com") (Except.ok ()) {}).2.1 =
        ["emails"]) ∧
    ((JobUnit.dispatch cfgW emailJob (some "a@b.com") (Except.error "ECONNRESET") {}).1 =
        Except.error "ECONNRESET" ∧
      closeEvents (JobUnit.dispatch cfgW emailJob (some "a@b.com")
          (Except.error "ECONNRESET") {}).2.1 = []) :=
  ⟨(dispatch_close_on_success_only cfgW {} rfl emailJob (some "a@b.com") {}).1,
   (dispatch_close_on_success_only cfgW {} rfl emailJob (some "a@b.com") {}).2 "ECONNRESET"⟩

/-- C3: with a non-empty configured queue-name list, the first access to the
queue-handle lookup triggers exactly one initialization pass — one job-file
discovery run, one queue-handle construction per configured list entry, and
one consumer attachment (concurrency 1) paired with each constructed handle —
and any number of further accesses leaves the module state exactly as it was
after the first: nothing is reconstructed and no consumer is reattached. -/
theorem queues_lazy_init_once (cfg : ConfigData) (jc : JobsConfig) (n : String)
    (rest : List String) (hjc : cfg.jobs = some jc) (hq : jc.queues = some (n :: rest))
    (p : String) (ps : List String) (f : Nat) :
    (proxyGet cfg (f + 2) {} p).2.discoveryRuns = 1 ∧
    (proxyGet cfg (f + 2) {} p).2.constructions.length = (n :: rest).length ∧
    (proxyGet cfg (f + 2) {} p).2.consumers =
      (proxyGet cfg (f + 2) {} p).2.constructions.map (fun h => (h.id, 1)) ∧
    lookups cfg (f + 2) (proxyGet cfg (f + 2) {} p).2 ps = (proxyGet cfg (f + 2) {} p).2 := by
  have hs := first_lookup_state cfg jc n rest hjc hq p f
  rw [hs]
  refine ⟨?_, ?_, ?_, ?_⟩
  · rw [attachLoop_discoveryRuns]
  · rw [attachLoop_constructions_length]
    simp
  · exact attachLoop_consumers jc (n :: rest) _ rfl
  · exact lookups_nonempty cfg (f + 1) _ ps (attachLoop_queueMap_ne_nil_of_cons jc n rest _)

theorem queues_lazy_init_once_witness :
    (proxyGet cfg4 2 {} "default").2.discoveryRuns = 1 ∧
    (proxyGet cfg4 2 {} "default").2.constructions.length =
      (["default"] : List String).length ∧
    (proxyGet cfg4 2 {} "default").2.consumers =
      (proxyGet cfg4 2 {} "default").2.constructions.map (fun h => (h.id, 1)) ∧
    lookups cfg4 2 (proxyGet cfg4 2 {} "default").2 ["default", "emails", "default"] =
      (proxyGet cfg4 2 {} "default").2 :=
  queues_lazy_init_once cfg4 jc4 "default" [] rfl rfl "default" ["default", "emails", "default"] 0

/-- C4 counterexample: under `cfg4` the initialization pass caches `h0c` (the
creation-number-0 handle) for `"default"`; a subsequent dispatch of a Job
Unit with `queueName = "default"` does not return that cached handle — it
constructs a brand-new handle (creation number 1) for the same name, so two
handles for the queue name `"default"` have been constructed in one process
and the dispatch-held handle coexists with the cached one. -/
theorem queue_handle_cache_counterexample :
    (proxyGet cfg4 2 {} "default").2 = s1c ∧
    getEntry s1c.queueMap "default" = some h0c ∧
    constructEvents (JobUnit.dispatch cfg4 defaultJob none (Except.ok ()) s1c).2.1 =
      [⟨"default", 1, { attempts := 2 }⟩] ∧
    ((JobUnit.dispatch cfg4 defaultJob none (Except.ok ()) s1c).2.2.constructions.map
        QueueHandle.name) = ["default", "default"] ∧
    (⟨"default", 1, { attempts := 2 }⟩ : QueueHandle) ≠ h0c := by
  refine ⟨rfl, rfl, rfl, rfl, ?_⟩
  decide

/-- C4 amended: the cached mapping does maintain at most one handle per queue
name — a lookup on a non-empty cache returns the cached handle and leaves the
state untouched, and the setter overwrites by key so the key list stays
duplicate-free — but dispatch does not use the cache: every dispatch call
constructs exactly one fresh handle (the next creation number) for its queue
name via `configureQueue`, regardless of what is cached. -/
theorem queue_handle_cache_amended {π : Type} :
    (∀ (cfg : ConfigData) (f : Nat) (s : QState) (p : String), s.queueMap ≠ [] →
        proxyGet cfg (f + 1) s p = (some (getEntry s.queueMap p), s)) ∧
    (∀ (m : List (String × QueueHandle)) (k : String) (v : QueueHandle),
        (m.map Prod.fst).Nodup → ((setEntry m k v).map Prod.fst).Nodup) ∧
    (∀ (cfg : ConfigData) (jc : JobsConfig), cfg.jobs = some jc →
        ∀ (j : JobUnit π) (payload : Option π) (outcome : Except String Unit) (s : QState),
          constructEvents (JobUnit.dispatch cfg j payload outcome s).2.1 =
            [⟨j.queueName, s.nextId, mkDefaultJobOptions jc⟩] ∧
          (JobUnit.dispatch cfg j payload outcome s).2.2.constructions =
            s.constructions ++ [⟨j.queueName, s.nextId, mkDefaultJobOptions jc⟩]) := by
  refine ⟨proxyGet_nonempty, setEntry_keys_nodup, ?_⟩
  intro cfg jc hjc j payload outcome s
  cases outcome <;> cases hdb : debugOn cfg <;>
    constructor <;>
    simp [JobUnit.dispatch, configureQueue, hjc, newQueue, constructEvents, hdb]

theorem queue_handle_cache_amended_witness :
    proxyGet cfg4 1 s1c "default" = (some (getEntry s1c.queueMap "default"), s1c) ∧
    ((setEntry ([] : List (String × QueueHandle)) "default" h0c).map Prod.fst).Nodup ∧
    constructEvents (JobUnit.dispatch cfg4 defaultJob none (Except.ok ()) s1c).2.1 =
      [⟨"default", s1c.nextId, mkDefaultJobOptions jc4⟩] :=
  ⟨(queue_handle_cache_amended (π := Unit)).1 cfg4 0 s1c "default" (by simp [s1c]),
   (queue_handle_cache_amended (π := Unit)).2.1 [] "default" h0c List.nodup_nil,
   ((queue_handle_cache_amended (π := Unit)).2.2 cfg4 jc4 rfl defaultJob none
      (Except.ok ()) s1c).1⟩

/-- C5 (code bug): with the configured queue-name list empty, the first
lookup does terminate — initialization completes with the warning and an
empty handle set, and the access returns undefined (not found) — but every
later lookup diverges instead of returning not-found: for every finite
recursion budget the second lookup exhausts it, because `initQueues` (flag
already set) skips its early return, leaves the cache empty and returns the
proxy itself, which re-enters the trap forever. The claim (and the guard's
evident intent) says every lookup terminates with a not-found result. -/
theorem empty_queues_lookup_behavior :
    proxyGet cfgE 2 {} "default" =
      (some none,
        { isInitialized := true, discoveryRuns := 1,
          warnLogs := ["⚠️  No queues configured"] }) ∧
    (∀ f : Nat, (proxyGet cfgE f
        { isInitialized := true, discoveryRuns := 1,
          warnLogs := ["⚠️  No queues configured"] } "default").1 = none) :=
  ⟨rfl, fun f => proxyGet_cfgE_diverges "default" f _ rfl rfl⟩

/-- C10: every queue handle — whether built by the initialization pass for a
configured queue or ad hoc by `configureQueue` for a dispatch — is
constructed with default job options whose `attempts` falls back to 2
whenever the configured `jobs.options.attempts` is absent or otherwise falsy
(zero); the Job Unit base class's own `attempts` default is 5, a different
value. -/
theorem default_attempts_fallback (cfg : ConfigData) (jc : JobsConfig)
    (hjc : cfg.jobs = some jc)
    (hatt : jc.options.bind (fun o => o.attempts) = none ∨
            jc.options.bind (fun o => o.attempts) = some 0) :
    (∀ (s : QState) (q : String) (h : QueueHandle) (s1 : QState),
        configureQueue cfg s q = some (h, s1) → h.defaultJobOptions.attempts = 2) ∧
    (∀ h : QueueHandle, h ∈ (initQueues cfg {}).2.constructions →
        h.defaultJobOptions.attempts = 2) ∧
    (∀ (c : String) (f : Option Unit → Except String Bool),
        ({ className := c, handle := f } : JobUnit Unit).attempts = 5) ∧
    (2 : Nat) ≠ 5 := by
  have hmk : (mkDefaultJobOptions jc).attempts = 2 := by
    rcases hatt with h | h <;> simp [mkDefaultJobOptions, orTwo, h]
  refine ⟨?_, ?_, fun c f => rfl, by decide⟩
  · intro s q h s1 heq
    unfold configureQueue at heq
    rw [hjc] at heq
    simp only [Option.map_some'] at heq
    have hh : h = ⟨q, s.nextId, mkDefaultJobOptions jc⟩ := by
      have := congrArg Prod.fst (Option.some.inj heq)
      simpa [newQueue] using this.symm
    rw [hh]
    exact hmk
  · intro h hm
    cases ht : queuesLengthTruthy cfg with
    | false =>
      unfold initQueues at hm
      simp [loadJobs, hjc, ht] at hm
    | true =>
      cases hq : jc.queues with
      | none =>
        exfalso
        simp [queuesLengthTruthy, configuredQueues, hjc, hq] at ht
      | some names =>
        unfold initQueues at hm
        simp [loadJobs, hjc, ht, configuredQueues, hq] at hm
        rcases attachLoop_constructions_mem jc names _ h hm with hmem | hopt
        · simp at hmem
        · rw [hopt]
          exact hmk

theorem default_attempts_fallback_witness :
    (⟨"payments", 0, { attempts := 2 }⟩ : QueueHandle).defaultJobOptions.attempts = 2 ∧
    ({ className := "X", handle := fun _ => Except.ok true } : JobUnit Unit).attempts = 5 :=
  ⟨(default_attempts_fallback cfgW {} rfl (Or.inl rfl)).1 {} "payments"
      ⟨"payments", 0, { attempts := 2 }⟩
      { nextId := 1, constructions := [⟨"payments", 0, { attempts := 2 }⟩] } rfl,
   (default_attempts_fallback cfgW {} rfl (Or.inl rfl)).2.2.1 "X" (fun _ => Except.ok true)⟩

end Lark
